import Mathlib

/-!
# Verification of the text-layer renderer of pdf2svg (src/text.rs)

Shallow embedding of `src/text.rs`.  Scalars (`f32` in the source) are
modelled as `ℚ`; the `f32` literal `0.3` is modelled as `3/10`.  The output
sink (`quick_xml::Writer<Vec<u8>>`) is modelled as the list of semantic
events written to it; attribute values are kept in semantic form (the raw
numbers / matrices / strings pushed by the code) because the decimal
rendering of floats is done by Rust's standard `Display`, external to this
repository.

External capabilities are parameters, exactly as they are consumed by the
code:
* `mupdf::Matrix::expansion` (the font-size derivation `sqrt(|a·d−b·c|)`)
  is an external mupdf method; it is passed as a function
  `expansion : Matrix → ℚ`.
* `mupdf::Font::advance_glyph_with_wmode` is the Glyph Metrics Provider;
  it is the field `Font.advance : Int → Bool → Option ℚ` (`None` = lookup
  failure, which the code recovers from with `.unwrap_or(0.3)`).
* `quick_xml::escape::escape` is modelled by `escape` below, following the
  documented behaviour of quick_xml (replace `<ympt;`-style reserved
  characters `< > & ' "` by their five standard XML entities).
-/

namespace Pdf2Svg

/-- 2D affine transform, the six coefficients of `mupdf::Matrix`
`(x,y) ↦ (a·x+c·y+e, b·x+d·y+f)`. -/
structure Matrix where
  a : ℚ
  b : ℚ
  c : ℚ
  d : ℚ
  e : ℚ
  f : ℚ
deriving DecidableEq, Repr

/-- `concat_matrix` from src/text.rs (lines 215-224). -/
def concat_matrix (m1 : Matrix) (m2 : Matrix) : Matrix :=
  { a := m1.a * m2.a + m1.b * m2.c
    b := m1.a * m2.b + m1.b * m2.d
    c := m1.c * m2.a + m1.d * m2.c
    d := m1.c * m2.b + m1.d * m2.d
    e := m1.e * m2.a + m1.f * m2.c + m2.e
    f := m1.e * m2.b + m1.f * m2.d + m2.f }

/-- `transform_point` from src/text.rs (lines 226-230). -/
def transform_point (m : Matrix) (p : ℚ × ℚ) : ℚ × ℚ :=
  (m.a * p.1 + m.c * p.2 + m.e, m.b * p.1 + m.d * p.2 + m.f)

/-- `mupdf::WriteMode` as used by the code (`Horizontal = 0`, `Vertical = 1`). -/
inductive WriteMode where
  | Horizontal
  | Vertical
deriving DecidableEq, Repr

/-- One `mupdf::TextItem`: device-space position, signed glyph id and signed
Unicode scalar, as read through `item.x() / item.y() / item.gid() / item.ucs()`. -/
structure TextItem where
  x : ℚ
  y : ℚ
  gid : Int
  ucs : Int
deriving DecidableEq, Repr

/-- The font of a span, as consumed by the code: its raw name
(`font.name()`) and the external Glyph Metrics Provider
(`font.advance_glyph_with_wmode(gid, vertical)`, `none` = lookup failure). -/
structure Font where
  name : List Char
  advance : Int → Bool → Option ℚ

/-- One `mupdf::TextSpan`, as read by `render_text`: its text matrix
(`span.trm()`), writing mode (`span.wmode()`), font (`span.font()`) and
items (`span.items()`). -/
structure Span where
  trm : Matrix
  wmode : WriteMode
  font : Font
  items : List TextItem

/-- Attribute values as pushed by the code, kept in semantic form:
`str` for string attributes, `mat` for `format_matrix(&transform)`,
`num` for `format!("{secondary}")`, `fontsize` for `format!("{}pt", fontsize)`,
`nums` for the offset list joined by single spaces. -/
inductive AttrValue where
  | str (s : List Char)
  | mat (m : Matrix)
  | num (q : ℚ)
  | fontsize (q : ℚ)
  | nums (qs : List ℚ)
deriving DecidableEq, Repr

/-- One semantic event written to the `quick_xml::Writer` sink:
`Event::Start`, `Event::Text`, `Event::End`. -/
inductive Event where
  | start (name : String) (attrs : List (String × AttrValue))
  | text (content : List Char)
  | close (name : String)
deriving DecidableEq, Repr

/-- `quick_xml::escape::escape`'s replacement for one character (external
dependency, modelled after its documented behaviour: the five XML reserved
characters become their standard entities, every other character is kept). -/
def escapeChar (c : Char) : List Char :=
  if c = '<' then ['&', 'l', 't', ';']
  else if c = '>' then ['&', 'g', 't', ';']
  else if c = '&' then ['&', 'a', 'm', 'p', ';']
  else if c = Char.ofNat 39 then ['&', 'a', 'p', 'o', 's', ';']
  else if c = Char.ofNat 34 then ['&', 'q', 'u', 'o', 't', ';']
  else [c]

/-- `quick_xml::escape::escape` on a whole string. -/
def escape (s : List Char) : List Char :=
  s.flatMap escapeChar

/-- The standard XML entity decoder (the inverse direction of `escape`,
used to state the round-trip property of the escaping contract). -/
def unescape : List Char → List Char
  | '&' :: 'l' :: 't' :: ';' :: rest => '<' :: unescape rest
  | '&' :: 'g' :: 't' :: ';' :: rest => '>' :: unescape rest
  | '&' :: 'a' :: 'm' :: 'p' :: ';' :: rest => '&' :: unescape rest
  | '&' :: 'a' :: 'p' :: 'o' :: 's' :: ';' :: rest => Char.ofNat 39 :: unescape rest
  | '&' :: 'q' :: 'u' :: 'o' :: 't' :: ';' :: rest => Char.ofNat 34 :: unescape rest
  | c :: rest => c :: unescape rest
  | [] => []

/-- `GlyphMetrics` (src/text.rs lines 104-108): advance width, primary-axis
coordinate and the count of following zero-glyph items. -/
structure GlyphMetrics where
  width : ℚ
  primary : ℚ
  followings : Nat
deriving DecidableEq, Repr

/-- `Line` (src/text.rs lines 109-114): the attributes already pushed on the
open `tspan` element, the glyph metrics, the secondary coordinate the line is
tagged with, and the accumulated text. -/
structure Line where
  elemAttrs : List (String × AttrValue)
  glyphs : List GlyphMetrics
  secondary : ℚ
  text : List Char
deriving DecidableEq, Repr

/-- Name of the secondary-axis attribute of a `tspan` (src/text.rs lines
131-137): "y" for horizontal, "x" for vertical. -/
def secondaryAxisName : WriteMode → String
  | WriteMode.Horizontal => "y"
  | WriteMode.Vertical => "x"

/-- Name of the primary-axis (position-list) attribute of a `tspan`
(src/text.rs lines 178-182): "x" for horizontal, "y" for vertical. -/
def primaryAxisName : WriteMode → String
  | WriteMode.Horizontal => "x"
  | WriteMode.Vertical => "y"

/-- The offset list built by `Line::emit` (src/text.rs lines 168-175): a
`vec![]` into which, for every glyph, its `primary` is pushed followed by
`followings` synthetic offsets `primary + adv·(i+1)` with
`adv = width / (followings + 1)`. -/
def Line.emitOffsets (l : Line) : List ℚ :=
  l.glyphs.foldl
    (fun offsets glyph =>
      let offsets := offsets ++ [glyph.primary]
      let adv := glyph.width / (((glyph.followings + 1 : Nat) : ℚ))
      offsets ++ (List.range glyph.followings).map
        (fun i => glyph.primary + adv * (((i + 1 : Nat) : ℚ))))
    []

/-- `Line::emit` (src/text.rs lines 167-199): push the position-list
attribute onto the stored `tspan` start element, write it, write the escaped
text content, write the end element. -/
def Line.emit (l : Line) (wmode : WriteMode) : List Event :=
  [Event.start ("tspan") (l.elemAttrs ++ [(primaryAxisName wmode, AttrValue.nums l.emitOffsets)]),
   Event.text (escape l.text),
   Event.close ("tspan")]

/-- The local point of an item: `transform_point(&inv, (item.x(), item.y()))`
(src/text.rs line 120). -/
def localPoint (inv : Matrix) (item : TextItem) : ℚ × ℚ :=
  transform_point inv (item.x, item.y)

/-- The primary coordinate of an item (src/text.rs lines 121-124). -/
def primaryOf (wmode : WriteMode) (inv : Matrix) (item : TextItem) : ℚ :=
  match wmode with
  | WriteMode.Horizontal => (localPoint inv item).1
  | WriteMode.Vertical => (localPoint inv item).2

/-- The secondary coordinate of an item (src/text.rs lines 121-124). -/
def secondaryOf (wmode : WriteMode) (inv : Matrix) (item : TextItem) : ℚ :=
  match wmode with
  | WriteMode.Horizontal => (localPoint inv item).2
  | WriteMode.Vertical => (localPoint inv item).1

/-- A freshly opened line (src/text.rs lines 130-143): a `tspan` element
carrying the secondary-axis attribute, no glyphs, no text. -/
def newLine (wmode : WriteMode) (secondary : ℚ) : Line :=
  { elemAttrs := [(secondaryAxisName wmode, AttrValue.num secondary)]
    glyphs := []
    secondary := secondary
    text := [] }

/-- The second half of the per-item loop body (src/text.rs lines 145-164),
acting on the line that is open once the grouping decision has been made:
record the glyph metric — a fresh GlyphMetrics for `gid >= 0` with the
looked-up advance width (fallback 0.3 on failure), the verbatim
`s.followings += 0` no-op of line 156 when `gid < 0` and the line has a
last glyph, a degenerate zero-width anchor otherwise — then push the item's
character onto the line's text. -/
def pushItem (wmode : WriteMode) (inv : Matrix) (font : Font)
    (l : Line) (item : TextItem) : Line :=
  let primary := primaryOf wmode inv item
  let l : Line :=
    if 0 ≤ item.gid then
      let width := (font.advance item.gid (decide (wmode = WriteMode.Vertical))).getD ((3 : ℚ)/10)
      { l with glyphs := l.glyphs ++ [{ width := width, primary := primary, followings := 0 }] }
    else
      match l.glyphs.getLast? with
      | some s =>
        { l with glyphs := l.glyphs.dropLast ++ [{ s with followings := s.followings + 0 }] }
      | none =>
        { l with glyphs := l.glyphs ++ [{ width := 0, primary := primary, followings := 0 }] }
  { l with text := l.text ++ [Char.ofNat item.ucs.toNat] }

/-- The body of the per-item loop of `render_text` (src/text.rs lines
116-165) for one (already filtered) item: close the open line when there is
none or its secondary differs (`is_none_or(|s| s.secondary != secondary)`,
line 125), opening a new line tagged with the item's secondary, then push
the item through `pushItem`.  Returns the new open line and the events
emitted by closing. -/
def processItem (wmode : WriteMode) (inv : Matrix) (font : Font)
    (line : Option Line) (item : TextItem) : Option Line × List Event :=
  let secondary := secondaryOf wmode inv item
  match line with
  | none => (some (pushItem wmode inv font (newLine wmode secondary) item), [])
  | some s =>
    if s.secondary ≠ secondary then
      (some (pushItem wmode inv font (newLine wmode secondary) item), s.emit wmode)
    else
      (some (pushItem wmode inv font s item), [])

/-- The item filter of src/text.rs line 118:
`c.ucs() >= 0 && char::from_u32(c.ucs() as u32).is_some()`. -/
def filterItems (items : List TextItem) : List TextItem :=
  items.filter (fun c => decide (0 ≤ c.ucs) && decide (Nat.isValidChar c.ucs.toNat))

/-- The font-family derivation of src/text.rs lines 84-90: if the name
contains a '+', keep only what follows the first '+'
(`fontfamily.find('+')` and the slice `[prefix+1..]`, modelled as dropping
up to and including the first '+'); then, if the result contains a '-',
keep only what precedes the last '-' (`fontfamily.rfind('-')` and the slice
`[..suffix]`, modelled through `reverse`). -/
def fontFamily (name : List Char) : List Char :=
  let name :=
    if '+' ∈ name then (name.dropWhile (fun c => c ≠ '+')).tail
    else name
  let name :=
    if '-' ∈ name then ((name.reverse.dropWhile (fun c => c ≠ '-')).tail).reverse
    else name
  name

/-- The normalisation matrix `inv` of src/text.rs lines 72-80:
`Matrix::new(d/fontsize, -b/fontsize, -c/fontsize, -a/fontsize, 0, 0)`. -/
def spanInv (fontsize : ℚ) (trm : Matrix) : Matrix :=
  { a := trm.d / fontsize
    b := -trm.b / fontsize
    c := -trm.c / fontsize
    d := -trm.a / fontsize
    e := 0
    f := 0 }

/-- The attributes pushed on the `text` start element (src/text.rs lines
92-100): xml:space, transform, font-family, font-size, writing-mode (only
when vertical), opacity. -/
def spanAttrs (expansion : Matrix → ℚ) (cmt : Matrix) (span : Span) :
    List (String × AttrValue) :=
  let fontsize := expansion span.trm
  let inv := spanInv fontsize span.trm
  let transform := concat_matrix inv cmt
  [("xml:space", AttrValue.str ("preserve".toList)),
   ("transform", AttrValue.mat transform),
   ("font-family", AttrValue.str (fontFamily span.font.name)),
   ("font-size", AttrValue.fontsize fontsize)]
  ++ (match span.wmode with
      | WriteMode.Vertical => [("writing-mode", AttrValue.str ("tb".toList))]
      | WriteMode.Horizontal => [])
  ++ [("opacity", AttrValue.str ("0".toList))]

/-- The body of the per-span loop of `render_text` (src/text.rs lines
68-207): write the `text` start element, fold the filtered items through the
line grouper, close any still-open line, write the `text` end element. -/
def renderSpan (expansion : Matrix → ℚ) (cmt : Matrix) (span : Span) :
    List Event :=
  let fontsize := expansion span.trm
  let inv := spanInv fontsize span.trm
  let folded :=
    (filterItems span.items).foldl
      (fun acc item =>
        let step := processItem span.wmode inv span.font acc.1 item
        (step.1, acc.2 ++ step.2))
      ((none : Option Line), ([] : List Event))
  let closing :=
    match folded.1 with
    | some l => l.emit span.wmode
    | none => []
  Event.start ("text") (spanAttrs expansion cmt span)
    :: (folded.2 ++ closing ++ [Event.close ("text")])

/-- `render_text` (src/text.rs line 67): iterate the spans of the `Text`. -/
def render_text (expansion : Matrix → ℚ) (text : List Span) (cmt : Matrix) :
    List Event :=
  text.flatMap (renderSpan expansion cmt)

/-! ### Observation helpers on event streams -/

/-- The payload of a `nums` (position-list) attribute value. -/
def attrValNums : AttrValue → Option (List ℚ)
  | AttrValue.nums qs => some qs
  | _ => none

/-- The position-list attribute payload of an attribute list (a `tspan`
carries exactly one `nums`-valued attribute, the primary-axis offset list). -/
def attrNums (attrs : List (String × AttrValue)) : List ℚ :=
  ((attrs.filterMap (fun a => attrValNums a.2)).headD [])

/-- The payload of a `num` (secondary-coordinate) attribute value. -/
def attrValNum : AttrValue → Option ℚ
  | AttrValue.num q => some q
  | _ => none

/-- The secondary-coordinate attribute payload of an attribute list (a
`tspan` carries exactly one `num`-valued attribute, pushed at line open). -/
def attrNum (attrs : List (String × AttrValue)) : ℚ :=
  ((attrs.filterMap (fun a => attrValNum a.2)).headD 0)

/-- For every emitted line (`tspan` start element immediately followed by
its character data), the pair (number of primary-axis offsets in the
position-list attribute, number of characters of the emitted text). -/
def tspanArities : List Event → List (Nat × Nat)
  | Event.start n attrs :: Event.text t :: rest =>
    if n = "tspan" then ((attrNums attrs).length, t.length) :: tspanArities rest
    else tspanArities (Event.text t :: rest)
  | _ :: rest => tspanArities rest
  | [] => []

/-- For every emitted line, the pair (secondary-axis attribute value,
number of characters of the emitted text). -/
def tspanLines : List Event → List (ℚ × Nat)
  | Event.start n attrs :: Event.text t :: rest =>
    if n = "tspan" then (attrNum attrs, t.length) :: tspanLines rest
    else tspanLines (Event.text t :: rest)
  | _ :: rest => tspanLines rest
  | [] => []

/-! ### Concrete fixtures used by counterexamples and witnesses

`trmUnit = Matrix(-1,0,0,1,0,0)` has `|a·d − b·c| = 1`, so mupdf's
`expansion` (`sqrt(|a·d − b·c|)`) returns `1` on it; `expansionOne`
instantiates the external capability accordingly.  `spanInv 1 trmUnit` is
then the identity, so items' device coordinates are their local
coordinates.  `trmZero` is the zero matrix, on which `expansion` returns
`0` (`expansionZero`). -/

/-- The identity matrix (`Matrix::IDENTITY`), used as device transform. -/
def idMatrix : Matrix := { a := 1, b := 0, c := 0, d := 1, e := 0, f := 0 }

/-- A text matrix with expansion 1 whose normalisation matrix is the
identity. -/
def trmUnit : Matrix := { a := -1, b := 0, c := 0, d := 1, e := 0, f := 0 }

/-- The zero text matrix, whose expansion (`sqrt(|a·d − b·c|)`) is 0. -/
def trmZero : Matrix := { a := 0, b := 0, c := 0, d := 0, e := 0, f := 0 }

/-- The external expansion capability on inputs of expansion 1. -/
def expansionOne : Matrix → ℚ := fun _ => 1

/-- The external expansion capability on inputs of expansion 0. -/
def expansionZero : Matrix → ℚ := fun _ => 0

/-- A font whose metrics provider always answers width 1. -/
def fontAdv1 : Font :=
  { name := ("F".toList), advance := fun _ _ => some 1 }

/-- A font whose metrics provider always fails. -/
def fontNoAdv : Font :=
  { name := ("F".toList), advance := fun _ _ => none }

/-- A horizontal span whose second item is a zero-glyph (gid = -1)
continuation character: items `('f', gid 0)` then `('i', gid -1)`, both on
secondary coordinate 0. -/
def spanFi : Span :=
  { trm := trmUnit, wmode := WriteMode.Horizontal, font := fontAdv1,
    items := [{ x := 0, y := 0, gid := 0, ucs := 102 },
              { x := 1/2, y := 0, gid := -1, ucs := 105 }] }

/-- A horizontal span of five glyph items whose secondary (y) coordinates
are `[0, 0, 1, 1, 0]`. -/
def spanGroup : Span :=
  { trm := trmUnit, wmode := WriteMode.Horizontal, font := fontAdv1,
    items := [{ x := 0, y := 0, gid := 0, ucs := 97 },
              { x := 1, y := 0, gid := 1, ucs := 98 },
              { x := 2, y := 1, gid := 2, ucs := 99 },
              { x := 3, y := 1, gid := 3, ucs := 100 },
              { x := 4, y := 0, gid := 4, ucs := 101 }] }

/-- A span whose text matrix is the zero matrix, so that the external
expansion (font size) is 0; it carries one ordinary glyph item. -/
def spanZero : Span :=
  { trm := trmZero, wmode := WriteMode.Horizontal, font := fontAdv1,
    items := [{ x := 0, y := 0, gid := 0, ucs := 97 }] }

/-- A span none of whose items carries a valid Unicode scalar (its only
item has ucs = -1), so the run produces zero lines. -/
def spanNoValid : Span :=
  { trm := trmUnit, wmode := WriteMode.Horizontal, font := fontAdv1,
    items := [{ x := 0, y := 0, gid := 0, ucs := -1 }] }

/-! ## Theorems for the claims -/

/-- C1: the claimed arity invariant (offset count = character count per
line) fails on the code.  On `spanFi` (characters "fi", the second item a
zero-glyph continuation) the single emitted line carries 1 primary-axis
offset but 2 characters: the `followings += 0` no-op of src/text.rs line
156 never records the continuation character in the offset list. -/
theorem claim1_arity_violation_eval :
    tspanArities (render_text expansionOne [spanFi] idMatrix) = [(1, 2)]
    ∧ (1 : Nat) ≠ 2 := by
  refine ⟨?_, by decide⟩
  norm_num +decide [tspanArities, render_text, renderSpan, spanFi, expansionOne,
    idMatrix, trmUnit, fontAdv1, filterItems, processItem, pushItem, spanInv, Line.emit,
    Line.emitOffsets, newLine, primaryOf, secondaryOf, localPoint,
    transform_point, attrNums, attrValNums, spanAttrs, concat_matrix,
    fontFamily, escape, escapeChar, secondaryAxisName, primaryAxisName]

/-- C2: with font size 0 (zero text matrix), `render_text` does not fail —
there is no `InvalidTransform` condition anywhere in the code (the function
returns `()`) — and it emits the span's full output to the sink: the start
element, one line, and the end element (5 events). -/
theorem claim2_zero_fontsize_emits :
    render_text expansionZero [spanZero] idMatrix ≠ []
    ∧ (render_text expansionZero [spanZero] idMatrix).length = 5 := by
  constructor <;>
  norm_num +decide [render_text, renderSpan, spanZero, expansionZero,
    idMatrix, trmZero, fontAdv1, filterItems, processItem, pushItem, spanInv, Line.emit,
    Line.emitOffsets, newLine, primaryOf, secondaryOf, localPoint,
    transform_point, spanAttrs, concat_matrix, fontFamily, escape, escapeChar,
    secondaryAxisName, primaryAxisName]

/-- C3 counterexample: a run producing zero lines (its only item has no
valid Unicode scalar) still writes markup to the sink — the `text` start
element is written unconditionally (src/text.rs line 102) before the item
loop, and its end element after — refuting the claim that no element at
all is written. -/
theorem claim3_counterexample_text_elem_emitted :
    renderSpan expansionOne idMatrix spanNoValid =
      [Event.start ("text") (spanAttrs expansionOne idMatrix spanNoValid),
       Event.close ("text")]
    ∧ renderSpan expansionOne idMatrix spanNoValid ≠ [] := by
  constructor <;>
  norm_num +decide [renderSpan, spanNoValid, expansionOne, idMatrix, trmUnit,
    fontAdv1, filterItems, processItem, pushItem, spanInv, Line.emit, Line.emitOffsets,
    newLine, primaryOf, secondaryOf, localPoint, transform_point, spanAttrs,
    concat_matrix, fontFamily, escape, escapeChar, secondaryAxisName,
    primaryAxisName]

/-- C3 amended: for a run whose item filter leaves no items (hence zero
lines), no line (`tspan`) element is written; the output for the run is
exactly the unconditional `text` start element followed by its end
element. -/
theorem claim3_amended_only_text_envelope (expansion : Matrix → ℚ)
    (cmt : Matrix) (span : Span) (h : filterItems span.items = []) :
    renderSpan expansion cmt span =
      [Event.start ("text") (spanAttrs expansion cmt span),
       Event.close ("text")] := by
  unfold renderSpan
  rw [h]
  rfl

/-- C3 amended, witness: the amended statement applied to the concrete run
with no valid-Unicode item. -/
theorem claim3_amended_witness :
    filterItems spanNoValid.items = []
    ∧ renderSpan expansionOne idMatrix spanNoValid =
        [Event.start ("text") (spanAttrs expansionOne idMatrix spanNoValid),
         Event.close ("text")] :=
  ⟨by decide, claim3_amended_only_text_envelope expansionOne idMatrix spanNoValid (by decide)⟩

/-- C4: a filtered item with no glyph id (gid < 0) arriving on an open line
that already holds at least one GlyphMetric (the item's secondary
coordinate matching, so the line stays open) leaves the line's glyph
metrics — in particular the last metric's `followings` counter — unchanged:
the `s.followings += 0` of src/text.rs line 156 is a no-op.  Only the text
grows, so the emitted offset list is exactly what it was before the item. -/
theorem claim4_followings_noop (wmode : WriteMode) (inv : Matrix) (font : Font)
    (l : Line) (item : TextItem)
    (hgid : item.gid < 0) (hne : l.glyphs ≠ [])
    (hsec : l.secondary = secondaryOf wmode inv item) :
    processItem wmode inv font (some l) item =
      (some { l with text := l.text ++ [Char.ofNat item.ucs.toNat] }, [])
    ∧ Line.emitOffsets { l with text := l.text ++ [Char.ofNat item.ucs.toNat] } =
        Line.emitOffsets l := by
  have hle : ¬ (0 ≤ item.gid) := not_le.mpr hgid
  have hlast : l.glyphs.getLast? = some (l.glyphs.getLast hne) :=
    List.getLast?_eq_getLast l.glyphs hne
  have heta : ∀ g : GlyphMetrics,
      ({ width := g.width, primary := g.primary, followings := g.followings + 0 } : GlyphMetrics)
        = g :=
    fun _ => rfl
  have hpush : pushItem wmode inv font l item =
      { l with text := l.text ++ [Char.ofNat item.ucs.toNat] } := by
    unfold pushItem
    simp only [if_neg hle, hlast, heta, List.dropLast_append_getLast hne]
  have hns : ¬ (l.secondary ≠ secondaryOf wmode inv item) := by simp [hsec]
  refine ⟨?_, rfl⟩
  simp only [processItem, if_neg hns, hpush]

/-- C4 witness: the no-op at a concrete input — a line holding one glyph
metric, receiving the zero-glyph continuation item of `spanFi`. -/
theorem claim4_followings_noop_witness :
    ((-1 : Int) < 0
      ∧ ({ elemAttrs := [], glyphs := [{ width := 1, primary := 0, followings := 0 }],
           secondary := 0, text := [Char.ofNat 102] } : Line).glyphs ≠ [])
    ∧ processItem WriteMode.Horizontal idMatrix fontAdv1
        (some { elemAttrs := [], glyphs := [{ width := 1, primary := 0, followings := 0 }],
                secondary := 0, text := [Char.ofNat 102] })
        { x := 1/2, y := 0, gid := -1, ucs := 105 } =
      (some { elemAttrs := [], glyphs := [{ width := 1, primary := 0, followings := 0 }],
              secondary := 0, text := [Char.ofNat 102] ++ [Char.ofNat (Int.toNat 105)] }, []) := by
  refine ⟨⟨by decide, by decide⟩, ?_⟩
  exact (claim4_followings_noop WriteMode.Horizontal idMatrix fontAdv1
    { elemAttrs := [], glyphs := [{ width := 1, primary := 0, followings := 0 }],
      secondary := 0, text := [Char.ofNat 102] }
    { x := 1/2, y := 0, gid := -1, ucs := 105 }
    (by decide) (by decide)
    (by norm_num [secondaryOf, localPoint, transform_point, idMatrix])).1

/-- C5: the grouper closes the open line exactly when the item's secondary
coordinate differs from the open line's secondary value (exact equality,
no tolerance), never closes when no line is open, always leaves a line
open tagged with the item's secondary value; and on the horizontal run
with secondary coordinates [0,0,1,1,0] it produces, in encounter order,
lines (sec 0, 2 chars), (sec 1, 2 chars), (sec 0, 1 char) — a revisited
secondary value starts a fresh line. -/
theorem claim5_grouping :
    (∀ (wmode : WriteMode) (inv : Matrix) (font : Font) (l : Line) (item : TextItem),
      (processItem wmode inv font (some l) item).2 =
        if l.secondary ≠ secondaryOf wmode inv item then l.emit wmode else [])
    ∧ (∀ (wmode : WriteMode) (inv : Matrix) (font : Font) (item : TextItem),
      (processItem wmode inv font none item).2 = [])
    ∧ (∀ (wmode : WriteMode) (inv : Matrix) (font : Font) (line : Option Line) (item : TextItem),
      ((processItem wmode inv font line item).1).map Line.secondary =
        some (secondaryOf wmode inv item))
    ∧ tspanLines (renderSpan expansionOne idMatrix spanGroup) =
        [(0, 2), (1, 2), (0, 1)] := by
  have hsecondary : ∀ wmode inv font (l : Line) item,
      (pushItem wmode inv font l item).secondary = l.secondary := by
    intro wmode inv font l item
    unfold pushItem
    split
    · rfl
    · split <;> rfl
  refine ⟨?_, ?_, ?_, ?_⟩
  · intro wmode inv font l item
    by_cases h : l.secondary ≠ secondaryOf wmode inv item
    · simp only [processItem, if_pos h]
    · simp only [processItem, if_neg h]
  · intro wmode inv font item
    rfl
  · intro wmode inv font line item
    cases line with
    | none =>
      simp only [processItem, Option.map_some', hsecondary]
      rfl
    | some s =>
      by_cases h : s.secondary ≠ secondaryOf wmode inv item
      · simp only [processItem, if_pos h, Option.map_some', hsecondary]
        rfl
      · simp only [processItem, if_neg h, Option.map_some', hsecondary]
        rw [not_ne_iff.mp h]
  · norm_num +decide [tspanLines, renderSpan, spanGroup, expansionOne,
      idMatrix, trmUnit, fontAdv1, filterItems, processItem, pushItem, spanInv,
      Line.emit, Line.emitOffsets, newLine, primaryOf, secondaryOf,
      localPoint, transform_point, attrNum, attrValNum, spanAttrs,
      concat_matrix, fontFamily, escape, escapeChar, secondaryAxisName,
      primaryAxisName]

/-- Helper for C6: the imperative push-loop of `Line::emit`, folded from any
accumulator, appends per glyph its primary offset followed by its
`followings` evenly spaced synthetic offsets. -/
theorem emitOffsets_foldl_eq (gs : List GlyphMetrics) :
    ∀ acc : List ℚ,
      gs.foldl
        (fun offsets glyph =>
          let offsets := offsets ++ [glyph.primary]
          let adv := glyph.width / (((glyph.followings + 1 : Nat) : ℚ))
          offsets ++ (List.range glyph.followings).map
            (fun i => glyph.primary + adv * (((i + 1 : Nat) : ℚ))))
        acc
      = acc ++ gs.flatMap
          (fun g => g.primary :: (List.range g.followings).map
            (fun i => g.primary
              + g.width / (((g.followings + 1 : Nat) : ℚ)) * (((i + 1 : Nat) : ℚ)))) := by
  induction gs with
  | nil => intro acc; simp
  | cons g gs ih =>
    intro acc
    simp only [List.foldl_cons, List.flatMap_cons, ih]
    simp [List.append_assoc]

/-- C6: for every line, the Offset Distributor emits, for each GlyphMetric
in order, its own primary coordinate followed by `followings` synthetic
offsets `primary + width/(followings+1)·(i+1)` for `i` in `0..followings`;
and a GlyphMetric with width 1, primary 10, followings 2 yields the three
offsets `[10, 31/3, 32/3]` (10, 10.33.., 10.66..). -/
theorem claim6_offset_distribution :
    (∀ l : Line, l.emitOffsets =
      l.glyphs.flatMap
        (fun g => g.primary :: (List.range g.followings).map
          (fun i => g.primary
            + g.width / (((g.followings + 1 : Nat) : ℚ)) * (((i + 1 : Nat) : ℚ)))))
    ∧ Line.emitOffsets
        { elemAttrs := [], glyphs := [{ width := 1, primary := 10, followings := 2 }],
          secondary := 0, text := [] } =
        [10, 31/3, 32/3] := by
  constructor
  · intro l
    simpa [Line.emitOffsets] using emitOffsets_foldl_eq l.glyphs []
  · norm_num [Line.emitOffsets, List.range_succ]

/-- C7: the emitted placement transform is `concat_matrix(inv, cmt)` for
`inv = Matrix(d/fontsize, -b/fontsize, -c/fontsize, -a/fontsize, 0, 0)`
built from the raw text matrix, where `concat_matrix` follows the stated
affine composition formula coefficient by coefficient. -/
theorem claim7_placement_transform :
    ∀ (expansion : Matrix → ℚ) (cmt : Matrix) (span : Span),
      (renderSpan expansion cmt span).head? =
        some (Event.start ("text") (spanAttrs expansion cmt span))
      ∧ (spanAttrs expansion cmt span).lookup ("transform") =
          some (AttrValue.mat
            (concat_matrix (spanInv (expansion span.trm) span.trm) cmt))
      ∧ spanInv (expansion span.trm) span.trm =
          { a := span.trm.d / expansion span.trm
            b := -span.trm.b / expansion span.trm
            c := -span.trm.c / expansion span.trm
            d := -span.trm.a / expansion span.trm
            e := 0
            f := 0 }
      ∧ ∀ m1 m2 : Matrix, concat_matrix m1 m2 =
          { a := m1.a * m2.a + m1.b * m2.c
            b := m1.a * m2.b + m1.b * m2.d
            c := m1.c * m2.a + m1.d * m2.c
            d := m1.c * m2.b + m1.d * m2.d
            e := m1.e * m2.a + m1.f * m2.c + m2.e
            f := m1.e * m2.b + m1.f * m2.d + m2.f } :=
  fun _ _ _ => ⟨rfl, rfl, rfl, fun _ _ => rfl⟩

/-- C8: the emitted font-family attribute is `fontFamily` of the raw font
name; `"ABCDEF+Helvetica-Bold"` yields `"Helvetica"`, and a name containing
neither a '+' nor a '-' is left unchanged. -/
theorem claim8_font_family :
    fontFamily ("ABCDEF+Helvetica-Bold".toList) = ("Helvetica".toList)
    ∧ (∀ name : List Char, '+' ∉ name → '-' ∉ name → fontFamily name = name)
    ∧ (∀ (expansion : Matrix → ℚ) (cmt : Matrix) (span : Span),
        (spanAttrs expansion cmt span).lookup ("font-family") =
          some (AttrValue.str (fontFamily span.font.name))) := by
  refine ⟨by decide, ?_, fun _ _ _ => rfl⟩
  intro name h1 h2
  simp [fontFamily, h1, h2]

/-- C8 witness: the general unchanged-name statement applied to "Arial". -/
theorem claim8_font_family_witness :
    ('+' ∉ ("Arial".toList) ∧ '-' ∉ ("Arial".toList))
    ∧ fontFamily ("Arial".toList) = ("Arial".toList) :=
  ⟨⟨by decide, by decide⟩,
   claim8_font_family.2.1 ("Arial".toList) (by decide) (by decide)⟩

/-- C9: for an item with a valid glyph id whose advance-width lookup fails
(the provider returns `none`), the glyph metric recorded for it carries the
fallback width 3/10 (the `f32` literal 0.3), the failure is not surfaced
(the step always yields an open line) and processing continues. -/
theorem claim9_metrics_fallback (wmode : WriteMode) (inv : Matrix) (font : Font)
    (line : Option Line) (item : TextItem)
    (hgid : 0 ≤ item.gid)
    (hfail : font.advance item.gid (decide (wmode = WriteMode.Vertical)) = none) :
    ∃ l : Line, (processItem wmode inv font line item).1 = some l
      ∧ l.glyphs.getLast? =
          some { width := (3 : ℚ)/10, primary := primaryOf wmode inv item,
                 followings := 0 } := by
  have hpush : ∀ l0 : Line,
      (pushItem wmode inv font l0 item).glyphs.getLast? =
        some { width := (3 : ℚ)/10, primary := primaryOf wmode inv item,
               followings := 0 } := by
    intro l0
    unfold pushItem
    simp only [if_pos hgid, hfail, Option.getD_none]
    exact List.getLast?_concat _
  cases line with
  | none => exact ⟨_, rfl, hpush _⟩
  | some s =>
    by_cases h : s.secondary ≠ secondaryOf wmode inv item
    · exact ⟨pushItem wmode inv font (newLine wmode (secondaryOf wmode inv item)) item,
        by simp only [processItem, if_pos h], hpush _⟩
    · exact ⟨pushItem wmode inv font s item,
        by simp only [processItem, if_neg h], hpush _⟩

/-- C9 witness: the fallback at a concrete input — a failing metrics
provider, a fresh horizontal run state, a glyph item at the origin. -/
theorem claim9_metrics_fallback_witness :
    ((0 : Int) ≤ 0
      ∧ fontNoAdv.advance 0 (decide (WriteMode.Horizontal = WriteMode.Vertical)) = none)
    ∧ ∃ l : Line,
        (processItem WriteMode.Horizontal idMatrix fontNoAdv none
          { x := 0, y := 0, gid := 0, ucs := 97 }).1 = some l
        ∧ l.glyphs.getLast? =
            some { width := (3 : ℚ)/10,
                   primary := primaryOf WriteMode.Horizontal idMatrix
                     { x := 0, y := 0, gid := 0, ucs := 97 },
                   followings := 0 } :=
  ⟨⟨by decide, rfl⟩,
   claim9_metrics_fallback WriteMode.Horizontal idMatrix fontNoAdv none
     { x := 0, y := 0, gid := 0, ucs := 97 } (by decide) rfl⟩

/-- Helper for C10: no character produced by `escapeChar` is a raw '<' or
'>' (the reserved characters themselves only survive as entity text). -/
theorem mem_escapeChar_ne_angle (c x : Char) (hx : x ∈ escapeChar c) :
    x ≠ '<' ∧ x ≠ '>' := by
  unfold escapeChar at hx
  split at hx
  · fin_cases hx <;> decide
  · split at hx
    · fin_cases hx <;> decide
    · split at hx
      · fin_cases hx <;> decide
      · split at hx
        · fin_cases hx <;> decide
        · split at hx
          · fin_cases hx <;> decide
          · rename_i h1 h2 h3 h4 h5
            simp only [List.mem_singleton] at hx
            subst hx
            exact ⟨h1, h2⟩

set_option maxHeartbeats 1000000 in
/-- Helper for C10: the entity decoder on a list headed by a non-'&'
character keeps that character and decodes the tail. -/
theorem unescape_cons_of_ne (c : Char) (t : List Char) (h : c ≠ '&') :
    unescape (c :: t) = c :: unescape t := by
  rw [unescape.eq_def]
  split
  · rename_i heq; rw [List.cons.injEq] at heq; exact absurd heq.1 h
  · rename_i heq; rw [List.cons.injEq] at heq; exact absurd heq.1 h
  · rename_i heq; rw [List.cons.injEq] at heq; exact absurd heq.1 h
  · rename_i heq; rw [List.cons.injEq] at heq; exact absurd heq.1 h
  · rename_i heq; rw [List.cons.injEq] at heq; exact absurd heq.1 h
  · rename_i heq
    rw [List.cons.injEq] at heq
    rw [← heq.1, ← heq.2]
  · rename_i heq
    simp at heq

set_option maxHeartbeats 1000000 in
/-- Helper for C10: decoding the escaped text recovers the original text
exactly. -/
theorem unescape_escape (s : List Char) : unescape (escape s) = s := by
  induction s with
  | nil => rfl
  | cons c t ih =>
    show unescape (escapeChar c ++ escape t) = c :: t
    by_cases h1 : c = '<'
    · subst h1; simpa [escapeChar, unescape] using ih
    · by_cases h2 : c = '>'
      · subst h2; simpa [escapeChar, unescape] using ih
      · by_cases h3 : c = '&'
        · subst h3; simpa [escapeChar, unescape] using ih
        · by_cases h4 : c = Char.ofNat 39
          · subst h4; simpa [escapeChar, unescape] using ih
          · by_cases h5 : c = Char.ofNat 34
            · subst h5; simpa [escapeChar, unescape] using ih
            · rw [show escapeChar c = [c] by simp [escapeChar, h1, h2, h3, h4, h5]]
              rw [List.singleton_append, unescape_cons_of_ne c _ h3, ih]

set_option maxHeartbeats 1000000 in
/-- Helper for C10: every '&' of the escaped text is the head of an entity
introduced for one reserved character of the original text — the number of
'&' characters in `escape s` equals the number of reserved characters of
`s`; no raw '&' of the original survives unescaped. -/
theorem count_amp_escape (s : List Char) :
    (escape s).count '&' =
      s.countP (fun c => c = '<' || c = '>' || c = '&'
        || c = Char.ofNat 39 || c = Char.ofNat 34) := by
  induction s with
  | nil => rfl
  | cons c t ih =>
    show (escapeChar c ++ escape t).count '&' = _
    rw [List.count_append, ih, List.countP_cons]
    by_cases h1 : c = '<'
    · subst h1; simp [escapeChar]; omega
    · by_cases h2 : c = '>'
      · subst h2; simp [escapeChar]; omega
      · by_cases h3 : c = '&'
        · subst h3; simp [escapeChar]; omega
        · by_cases h4 : c = Char.ofNat 39
          · subst h4; simp [escapeChar]; omega
          · by_cases h5 : c = Char.ofNat 34
            · subst h5; simp [escapeChar]; omega
            · rw [show escapeChar c = [c] by simp [escapeChar, h1, h2, h3, h4, h5]]
              simp [List.count_singleton, h1, h2, h3, h4, h5]

/-- C10: for a line whose accumulated text contains '<', '&' or '>', the
emitted character data is `escape` of the text: it contains no raw '<' or
'>' at all, each of its '&' characters heads an entity standing for one
reserved character of the original (count equality), and decoding it
recovers the original text exactly. -/
theorem claim10_escaping (l : Line) (wmode : WriteMode)
    (_hres : '<' ∈ l.text ∨ '&' ∈ l.text ∨ '>' ∈ l.text) :
    (∃ attrs, l.emit wmode =
      [Event.start ("tspan") attrs, Event.text (escape l.text),
       Event.close ("tspan")])
    ∧ '<' ∉ escape l.text
    ∧ '>' ∉ escape l.text
    ∧ (escape l.text).count '&' =
        l.text.countP (fun c => c = '<' || c = '>' || c = '&'
          || c = Char.ofNat 39 || c = Char.ofNat 34)
    ∧ unescape (escape l.text) = l.text := by
  refine ⟨⟨_, rfl⟩, ?_, ?_, count_amp_escape l.text, unescape_escape l.text⟩
  · intro hmem
    rcases List.mem_flatMap.mp hmem with ⟨c, _, hc⟩
    exact (mem_escapeChar_ne_angle c _ hc).1 rfl
  · intro hmem
    rcases List.mem_flatMap.mp hmem with ⟨c, _, hc⟩
    exact (mem_escapeChar_ne_angle c _ hc).2 rfl

/-- C10 witness: the escaping guarantees at a concrete line whose text is
"a<b&c>d". -/
theorem claim10_escaping_witness :
    ('<' ∈ ("a<b&c>d".toList) ∨ '&' ∈ ("a<b&c>d".toList) ∨ '>' ∈ ("a<b&c>d".toList))
    ∧ ((∃ attrs,
        Line.emit { elemAttrs := [], glyphs := [], secondary := 0, text := ("a<b&c>d".toList) }
          WriteMode.Horizontal =
        [Event.start ("tspan") attrs, Event.text (escape ("a<b&c>d".toList)),
         Event.close ("tspan")])
      ∧ '<' ∉ escape ("a<b&c>d".toList)
      ∧ '>' ∉ escape ("a<b&c>d".toList)
      ∧ (escape ("a<b&c>d".toList)).count '&' =
          ("a<b&c>d".toList).countP (fun c => c = '<' || c = '>' || c = '&'
            || c = Char.ofNat 39 || c = Char.ofNat 34)
      ∧ unescape (escape ("a<b&c>d".toList)) = ("a<b&c>d".toList)) :=
  ⟨by decide,
   claim10_escaping { elemAttrs := [], glyphs := [], secondary := 0, text := ("a<b&c>d".toList) }
     WriteMode.Horizontal (by decide)⟩

end Pdf2Svg
